import Mathlib

/-!
Verification of the DebonAIr outfit-generation frontend (static/js/app.js).

This file shallowly embeds the request-building and event-handling logic of
static/js/app.js and proves the specification's claims about it.  Filenames
are kept abstract as a type `ν` with decidable equality (the JavaScript uses
strings; concrete instances below use `String` or `Nat`).  A `File` records
its name and an `id` standing for its contents, distinguishing distinct
uploads that happen to share a filename.

Layout: all definitions first (the embedding of the source, plus the
concrete inputs used by witnesses and counterexamples), then the supporting
lemmas, then one theorem per claim.
-/

namespace DebonAIr

/-- An uploaded file: `name` is the filename used as de-duplication key,
`id` stands for the file's contents. -/
structure File (ν : Type) where
  name : ν
  id : Nat
  deriving DecidableEq

variable {ν : Type} [DecidableEq ν]

/-- The de-duplication loop of app.js (lines 816-823 and 426-433):
`const uniqueFiles = new Map(); for (const file of files) if
(!uniqueFiles.has(file.name)) uniqueFiles.set(file.name, file)`.
`seen` is the set of keys already present in the Map; the Map keeps
insertion order, so the result keeps the first file of each name in
upload order. -/
def dedupFiles : List (File ν) → List ν → List (File ν)
  | [], _ => []
  | f :: rest, seen =>
    if f.name ∈ seen then dedupFiles rest seen
    else f :: dedupFiles rest (f.name :: seen)

/-- Model of `Array.from(uniqueFiles.values())`: the de-duplicated file
list, first occurrence of each filename kept, in upload order. -/
def uniqueFilesByName (files : List (File ν)) : List (File ν) :=
  dedupFiles files []

/-- Model of `imageDescriptions.get(n)` on the association-list model of
the JavaScript `Map` (insertion order, no duplicate keys). -/
def lookupDesc (cache : List (ν × String)) (n : ν) : Option String :=
  (cache.find? (fun e => e.1 = n)).map (fun e => e.2)

/-- State threaded through `preprocessImages`: the description cache, the
log of filenames POSTed to `/api/describe-image`, and the `completed`
counter that drives the progress bar. -/
structure PreState (ν : Type) where
  cache : List (ν × String)
  calls : List ν
  completed : Nat
  deriving DecidableEq

/-- One iteration of the `preprocessImages` batch body (app.js 441-471) for
a single file: if the filename is already cached, only `completed++`;
otherwise POST to `/api/describe-image` (the `oracle` gives the response:
`some d` when `response.ok && data.success`, `none` on failure or error),
cache a successful description, and `completed++` in every case. -/
def processFile (oracle : ν → Option String) (st : PreState ν) (f : File ν) :
    PreState ν :=
  if (lookupDesc st.cache f.name).isSome then
    { st with completed := st.completed + 1 }
  else
    match oracle f.name with
    | some d =>
      { cache := st.cache ++ [(f.name, d)], calls := st.calls ++ [f.name],
        completed := st.completed + 1 }
    | none =>
      { st with calls := st.calls ++ [f.name], completed := st.completed + 1 }

/-- The whole describe loop over the de-duplicated `filesToProcess`.  The
batches of 3 only bound concurrency; the per-file body is independent of the
other files of a batch, so the fold processes files sequentially. -/
def processFiles (oracle : ν → Option String) (st : PreState ν)
    (files : List (File ν)) : PreState ν :=
  files.foldl (processFile oracle) st

/-- Model of `preprocessImages(files)` (app.js 414-485): returns immediately
when `files.length === 0`; otherwise de-duplicates by filename and runs the
describe loop over the unique files. -/
def preprocessImages (oracle : ν → Option String) (cache0 : List (ν × String))
    (files : List (File ν)) : PreState ν :=
  if files.length = 0 then { cache := cache0, calls := [], completed := 0 }
  else processFiles oracle { cache := cache0, calls := [], completed := 0 }
    (uniqueFilesByName files)

/-- Model of `Math.round((completed / total) * 100)` of app.js line 488:
for non-negative operands JavaScript's `Math.round(x)` is `⌊x + 1/2⌋`, and
`⌊100·c/t + 1/2⌋ = (200·c + t) / (2·t)` in natural-number division. -/
def progressPercent (completed total : Nat) : Nat :=
  (200 * completed + total) / (2 * total)

/-- The final value shown by the pre-processing progress bar: the last
`updatePreprocessingProgress(completed, total)` call, where `completed` has
been incremented once per de-duplicated file and `total` is the raw
`files.length` (app.js 422-423, 487-491). -/
def preprocessFinalPercent (oracle : ν → Option String)
    (cache0 : List (ν × String)) (files : List (File ν)) : Nat :=
  progressPercent (preprocessImages oracle cache0 files).completed files.length

/-- Model of JavaScript `String.prototype.trim()` on the character list:
strip whitespace from both ends. -/
def trimChars (l : List Char) : List Char :=
  ((l.dropWhile Char.isWhitespace).reverse.dropWhile Char.isWhitespace).reverse

/-- Model of `queryInput.value.trim()` (app.js 771). -/
def jsTrim (s : String) : String :=
  ⟨trimChars s.data⟩

/-- JavaScript builds `precomputedDescriptions` as a plain object with
`precomputedDescriptions[index] = imageDescriptions.get(file.name)` inside
`filesToSubmit.forEach((file, index) => ...)` (app.js 829-834); object keys
are strings, so the numeric index becomes its decimal string. -/
def precomputedDescs (cache : List (ν × String)) :
    List (File ν) → Nat → List (String × String)
  | [], _ => []
  | f :: rest, i =>
    match lookupDesc cache f.name with
    | some d => (Nat.repr i, d) :: precomputedDescs cache rest (i + 1)
    | none => precomputedDescs cache rest (i + 1)

/-- Outcome of one click of the generate button: an early-returned
validation error (shown via `showError`, no request made, hence no
downstream AI call) or the `/api/generate` form submission. -/
inductive GenerateOutcome (ν : Type) where
  | validationError (msg : String)
  | submit (clothing : List (File ν)) (precomputed : List (String × String))
      (selfies : List (File ν)) (query : Option String)
      (sessionId : Option String)
  deriving DecidableEq

/-- The generate button click handler (app.js 769-868): trim the query,
reject when there are no clothing images and no query text, reject more
than 30 clothing images, otherwise de-duplicate by filename and submit the
unique files together with the index-keyed pre-computed descriptions, the
selfies, the non-empty query and the session id. -/
def generateClick (clothingFiles selfieFiles : List (File ν))
    (queryRaw : String) (imageDescriptions : List (ν × String))
    (sessionId : Option String) : GenerateOutcome ν :=
  let query := jsTrim queryRaw
  if clothingFiles.length = 0 ∧ query = "" then
    .validationError "Please upload clothing images or ask a question"
  else if clothingFiles.length > 30 then
    .validationError "Maximum 30 clothing items allowed"
  else
    let filesToSubmit := uniqueFilesByName clothingFiles
    .submit filesToSubmit (precomputedDescs imageDescriptions filesToSubmit 0)
      selfieFiles (if query = "" then none else some query) sessionId

/-- Whether the outcome is an early validation rejection. -/
def GenerateOutcome.isReject : GenerateOutcome ν → Bool
  | .validationError _ => true
  | .submit _ _ _ _ _ => false

/-- The selfie input change handler (app.js 315-327):
`selfieFiles = files.slice(0, 3)` silently keeps the first 3 of the
selected files. -/
def selfieChangeHandler (files : List (File ν)) : List (File ν) :=
  files.take 3

/-- The selfie drop-zone handler (app.js 1367-1380): appends at most
`3 - selfieFiles.length` of the dropped files to the current selection. -/
def selfieDropHandler (current dropped : List (File ν)) : List (File ν) :=
  current ++ dropped.take (3 - current.length)

/-- The per-character encoding performed by the browser when `escapeHtml`
(app.js 1102-1106) assigns `textContent` and reads back `innerHTML`: the
text-node serialization replaces ampersand, angle brackets and U+00A0 by
their entities and leaves every other character alone. -/
def escapeChar (c : Char) : List Char :=
  if c = '&' then "&amp;".data
  else if c = '<' then "&lt;".data
  else if c = '>' then "&gt;".data
  else if c = Char.ofNat 160 then "&nbsp;".data
  else [c]

def escapeHtmlAux : List Char → List Char
  | [] => []
  | c :: rest => escapeChar c ++ escapeHtmlAux rest

/-- Model of `escapeHtml(text)` (app.js 1102-1106). -/
def escapeHtml (s : String) : String :=
  ⟨escapeHtmlAux s.data⟩

/-- The user chat bubble HTML built in `addChatMessage('user', content)`
(app.js 970-973): the query text is inserted only through `escapeHtml`. -/
def userBubbleHTML (content : String) : String :=
  "<div class=\"message-label\">You</div><div class=\"message-text\">" ++
    escapeHtml content ++ "</div>"

/-- The assistant bubble HTML built identically in both branches of
`addChatMessage('assistant', content)` (app.js 991-1001 and 1044-1054):
the `query_response`, when present, is inserted only through `escapeHtml`,
followed by the outfits grid when outfits exist. -/
def assistantBubbleHTML (queryResponse : Option String) (hasOutfits : Bool) :
    String :=
  let base := "<div class=\"message-label\">DebonAIr</div>"
  let base :=
    match queryResponse with
    | some r => base ++ "<div class=\"message-text\">" ++ escapeHtml r ++ "</div>"
    | none => base
  if hasOutfits then base ++ "<div class=\"outfits-grid\"></div>" else base

/-- Content of an outfit card: the loading placeholder created by
`createPlaceholderOutfitCard` or the generated image delivered by an
`outfit_ready` event. -/
inductive CardImage where
  | placeholderImg
  | image (url : String)
  deriving DecidableEq

/-- An outfit card of the outfits grid, in DOM order, carrying its
`data-outfit-number`. -/
structure Card where
  number : Nat
  img : CardImage
  deriving DecidableEq

/-- One `outfit_ready` event: the combination number and the generated
image URL it carries. -/
structure OutfitEvent where
  number : Nat
  url : String
  deriving DecidableEq

/-- Replace the image of the first card whose `data-outfit-number` matches
(the `querySelector` plus `replaceWith` or `src` update of app.js
710-729). -/
def updateFirstCard : List Card → OutfitEvent → List Card
  | [], _ => []
  | c :: rest, e =>
    if c.number = e.number then { c with img := CardImage.image e.url } :: rest
    else c :: updateFirstCard rest e

/-- Model of `displayLiveOutfit(data)` (app.js 695-766): if a card with
this outfit number exists, fill it in place; otherwise append a fresh card
at the end of the grid. -/
def displayLiveOutfit (grid : List Card) (e : OutfitEvent) : List Card :=
  if grid.any (fun c => c.number = e.number) then updateFirstCard grid e
  else grid ++ [{ number := e.number, img := CardImage.image e.url }]

/-- Model of `createOutfitPlaceholders(totalOutfits)` (app.js 1255-1270):
when the grid is empty, append placeholder cards numbered 1..total in that
order. -/
def createOutfitPlaceholders (total : Nat) (grid : List Card) : List Card :=
  if grid = [] then
    (List.range' 1 total).map fun k => { number := k, img := CardImage.placeholderImg }
  else grid

/-- Handling of a stream of `outfit_ready` events: each event is rendered
as it arrives (`socket.on('outfit_ready', displayLiveOutfit)`, app.js
51-54), i.e. the grid is folded over the events in completion order. -/
def processEvents (arr : List OutfitEvent) (grid : List Card) : List Card :=
  arr.foldl displayLiveOutfit grid

/-- Card number `k` of the grid has been filled with a generated image: the
first (for a placeholder grid: the unique) card with
`data-outfit-number = k` carries an outfit image. -/
def FilledAt (grid : List Card) (k : Nat) : Prop :=
  ∃ u, grid.find? (fun c => c.number = k) =
    some { number := k, img := CardImage.image u }

/-! Concrete inputs used by the witnesses and counterexamples below. -/

/-- The spec's de-duplication example: clothing uploads a.jpg, b.jpg, a.jpg
(the two a.jpg uploads have different contents). -/
def clothingDupExample : List (File String) :=
  [⟨"a.jpg", 0⟩, ⟨"b.jpg", 1⟩, ⟨"a.jpg", 2⟩]

/-- Two uploads sharing one filename but with different contents. -/
def clothingFirstOccExample : List (File String) :=
  [⟨"a.jpg", 1⟩, ⟨"a.jpg", 2⟩]

/-- Thirty-one clothing files with pairwise distinct names. -/
def clothing31 : List (File Nat) :=
  (List.range 31).map fun i => ⟨i, i⟩

/-- Four selfie files. -/
def selfies4 : List (File String) :=
  [⟨"s1.jpg", 1⟩, ⟨"s2.jpg", 2⟩, ⟨"s3.jpg", 3⟩, ⟨"s4.jpg", 4⟩]

/-- A completion order where generation call 3 finishes first: events for
outfits 3, 1, 2 in that arrival order. -/
def outOfOrderEvents : List OutfitEvent :=
  [⟨3, "/output/outfit_3.jpg"⟩, ⟨1, "/output/outfit_1.jpg"⟩, ⟨2, "/output/outfit_2.jpg"⟩]

/-- A selection of 201 clothing files among which exactly one filename
(name 0) appears twice: 200 distinct names, 201 files in total. -/
def files201 : List (File Nat) :=
  ⟨0, 200⟩ :: ((List.range 200).map fun i => ⟨i, i⟩)

/-! Supporting lemmas about the de-duplication loop. -/

theorem mem_map_name_dedupFiles (files : List (File ν)) (seen : List ν) (n : ν) :
    n ∈ (dedupFiles files seen).map File.name ↔
      n ∈ files.map File.name ∧ n ∉ seen := by
  induction files generalizing seen with
  | nil => simp [dedupFiles]
  | cons f rest ih =>
    by_cases hf : f.name ∈ seen
    · simp only [dedupFiles, if_pos hf, ih, List.map_cons, List.mem_cons]
      constructor
      · rintro ⟨hm, hs⟩; exact ⟨Or.inr hm, hs⟩
      · rintro ⟨hm | hm, hs⟩
        · exact absurd (hm ▸ hf) hs
        · exact ⟨hm, hs⟩
    · simp only [dedupFiles, if_neg hf, List.map_cons, List.mem_cons, ih]
      by_cases he : n = f.name
      · subst he; tauto
      · tauto

theorem nodup_map_name_dedupFiles (files : List (File ν)) (seen : List ν) :
    ((dedupFiles files seen).map File.name).Nodup := by
  induction files generalizing seen with
  | nil => simp [dedupFiles]
  | cons f rest ih =>
    by_cases hf : f.name ∈ seen
    · simpa [dedupFiles, if_pos hf] using ih seen
    · simp only [dedupFiles, if_neg hf, List.map_cons, List.nodup_cons]
      refine ⟨fun hmem => ?_, ih _⟩
      rcases (mem_map_name_dedupFiles rest (f.name :: seen) f.name).mp hmem with ⟨_, hs⟩
      exact hs (List.mem_cons_self _ _)

theorem nodup_map_name_uniqueFilesByName (files : List (File ν)) :
    ((uniqueFilesByName files).map File.name).Nodup :=
  nodup_map_name_dedupFiles files []

theorem mem_map_name_uniqueFilesByName (files : List (File ν)) (n : ν) :
    n ∈ (uniqueFilesByName files).map File.name ↔ n ∈ files.map File.name := by
  simpa using mem_map_name_dedupFiles files [] n

theorem find?_dedupFiles (files : List (File ν)) (seen : List ν) (n : ν)
    (hn : n ∉ seen) :
    (dedupFiles files seen).find? (fun f => f.name = n) =
      files.find? (fun f => f.name = n) := by
  induction files generalizing seen with
  | nil => simp [dedupFiles]
  | cons f rest ih =>
    by_cases hf : f.name ∈ seen
    · have hne : ¬ (f.name = n) := fun h => hn (h ▸ hf)
      rw [dedupFiles, if_pos hf, ih seen hn, List.find?_cons]
      simp [hne]
    · rw [dedupFiles, if_neg hf]
      by_cases he : f.name = n
      · simp [List.find?_cons, he]
      · have hn' : n ∉ f.name :: seen := by
          intro h
          rcases List.mem_cons.mp h with h | h
          · exact he h.symm
          · exact hn h
        rw [List.find?_cons, List.find?_cons]
        simp only [he, decide_False]
        exact ih (f.name :: seen) hn'

theorem find?_uniqueFilesByName (files : List (File ν)) (n : ν) :
    (uniqueFilesByName files).find? (fun f => f.name = n) =
      files.find? (fun f => f.name = n) :=
  find?_dedupFiles files [] n (List.not_mem_nil n)

theorem length_dedupFiles_le (files : List (File ν)) (seen : List ν) :
    (dedupFiles files seen).length ≤ files.length := by
  induction files generalizing seen with
  | nil => simp [dedupFiles]
  | cons f rest ih =>
    by_cases hf : f.name ∈ seen
    · rw [dedupFiles, if_pos hf]
      exact Nat.le_succ_of_le (ih seen)
    · rw [dedupFiles, if_neg hf, List.length_cons, List.length_cons]
      exact Nat.succ_le_succ (ih _)

theorem length_dedupFiles_lt (files : List (File ν)) (seen : List ν)
    (h : (∃ n, n ∈ files.map File.name ∧ n ∈ seen) ∨
      ¬ (files.map File.name).Nodup) :
    (dedupFiles files seen).length < files.length := by
  induction files generalizing seen with
  | nil =>
    rcases h with ⟨n, hn, _⟩ | h
    · exact absurd hn (by simp)
    · exact absurd List.nodup_nil h
  | cons f rest ih =>
    by_cases hf : f.name ∈ seen
    · rw [dedupFiles, if_pos hf, List.length_cons]
      exact Nat.lt_succ_of_le (length_dedupFiles_le rest seen)
    · rw [dedupFiles, if_neg hf, List.length_cons, List.length_cons]
      refine Nat.succ_lt_succ (ih (f.name :: seen) ?_)
      rcases h with ⟨n, hn, hs⟩ | h
      · rcases (by simpa using hn : n = f.name ∨ ∃ a ∈ rest, a.name = n) with
          hn1 | ⟨a, har, han⟩
        · exact absurd (hn1 ▸ hs) hf
        · exact Or.inl ⟨n, List.mem_map.mpr ⟨a, har, han⟩, List.mem_cons_of_mem _ hs⟩
      · rw [List.map_cons, List.nodup_cons] at h
        push_neg at h
        by_cases hmem : f.name ∈ rest.map File.name
        · exact Or.inl ⟨f.name, hmem, List.mem_cons_self _ _⟩
        · exact Or.inr (h hmem)

/-! Supporting lemmas about the describe loop and the progress bar. -/

theorem lookupDesc_append_right (cache : List (ν × String)) (l : List (ν × String))
    (n : ν) (d : String) (h : lookupDesc cache n = some d) :
    lookupDesc (cache ++ l) n = some d := by
  unfold lookupDesc at h ⊢
  rw [List.find?_append]
  rcases ho : cache.find? (fun e => e.1 = n) with _ | e
  · rw [ho] at h; exact absurd h (by simp)
  · rw [ho] at h
    simp [Option.orElse, h, ho]

theorem processFile_preserves (oracle : ν → Option String) (st : PreState ν)
    (f : File ν) (n : ν) (d : String)
    (hc : lookupDesc st.cache n = some d) (hl : n ∉ st.calls) :
    lookupDesc (processFile oracle st f).cache n = some d ∧
      n ∉ (processFile oracle st f).calls := by
  by_cases hcached : (lookupDesc st.cache f.name).isSome = true
  · unfold processFile
    rw [if_pos hcached]
    exact ⟨hc, hl⟩
  · have hne : f.name ≠ n := fun h => by
      rw [h, hc] at hcached; exact hcached rfl
    have hmemcalls : n ∉ st.calls ++ [f.name] := by
      intro hmem
      rcases List.mem_append.mp hmem with h | h
      · exact hl h
      · exact hne (List.mem_singleton.mp h).symm
    unfold processFile
    rw [if_neg hcached]
    rcases ho : oracle f.name with _ | desc
    · exact ⟨hc, hmemcalls⟩
    · exact ⟨lookupDesc_append_right _ _ _ _ hc, hmemcalls⟩

theorem processFiles_preserves (oracle : ν → Option String)
    (files : List (File ν)) (st : PreState ν) (n : ν) (d : String)
    (hc : lookupDesc st.cache n = some d) (hl : n ∉ st.calls) :
    lookupDesc (processFiles oracle st files).cache n = some d ∧
      n ∉ (processFiles oracle st files).calls := by
  induction files generalizing st with
  | nil => exact ⟨hc, hl⟩
  | cons f rest ih =>
    have step := processFile_preserves oracle st f n d hc hl
    exact ih (processFile oracle st f) step.1 step.2

theorem processFiles_completed (oracle : ν → Option String)
    (files : List (File ν)) (st : PreState ν) :
    (processFiles oracle st files).completed = st.completed + files.length := by
  induction files generalizing st with
  | nil => simp [processFiles]
  | cons f rest ih =>
    have hstep : (processFile oracle st f).completed = st.completed + 1 := by
      unfold processFile
      by_cases hcached : (lookupDesc st.cache f.name).isSome
      · simp [hcached]
      · rcases ho : oracle f.name with _ | d <;> simp [hcached, ho]
    calc (processFiles oracle st (f :: rest)).completed
        = (processFile oracle st f).completed + rest.length :=
          ih (processFile oracle st f)
      _ = st.completed + (f :: rest).length := by
          rw [hstep, List.length_cons]; omega

theorem progressPercent_lt_100 (c t : Nat) (hc : c < t) (ht : t ≤ 199) :
    progressPercent c t < 100 := by
  unfold progressPercent
  have h2t : 0 < 2 * t := by omega
  rw [Nat.div_lt_iff_lt_mul h2t]
  omega

/-! Supporting lemmas about the generate click handler. -/

theorem generateClick_submit_clothing (clothingFiles selfieFiles : List (File ν))
    (queryRaw : String) (imageDescriptions : List (ν × String))
    (sessionId : Option String) (fs : List (File ν))
    (pre : List (String × String)) (sel : List (File ν)) (q : Option String)
    (sid : Option String)
    (h : generateClick clothingFiles selfieFiles queryRaw imageDescriptions
      sessionId = .submit fs pre sel q sid) :
    fs = uniqueFilesByName clothingFiles ∧
      pre = precomputedDescs imageDescriptions (uniqueFilesByName clothingFiles) 0 := by
  simp only [generateClick] at h
  split_ifs at h <;> cases h <;> exact ⟨rfl, rfl⟩

/-! Supporting lemmas about HTML escaping. -/

theorem escapeChar_no_angle (c : Char) :
    '<' ∉ escapeChar c ∧ '>' ∉ escapeChar c := by
  unfold escapeChar
  split_ifs with h1 h2 h3 h4
  · exact ⟨by decide, by decide⟩
  · exact ⟨by decide, by decide⟩
  · exact ⟨by decide, by decide⟩
  · exact ⟨by decide, by decide⟩
  · constructor
    · intro hmem
      exact h2 (List.mem_singleton.mp hmem).symm
    · intro hmem
      exact h3 (List.mem_singleton.mp hmem).symm

theorem escapeHtmlAux_no_angle (l : List Char) :
    '<' ∉ escapeHtmlAux l ∧ '>' ∉ escapeHtmlAux l := by
  induction l with
  | nil => exact ⟨by simp [escapeHtmlAux], by simp [escapeHtmlAux]⟩
  | cons c rest ih =>
    unfold escapeHtmlAux
    constructor
    · intro hmem
      rcases List.mem_append.mp hmem with h | h
      · exact (escapeChar_no_angle c).1 h
      · exact ih.1 h
    · intro hmem
      rcases List.mem_append.mp hmem with h | h
      · exact (escapeChar_no_angle c).2 h
      · exact ih.2 h

theorem escapeHtml_no_angle (s : String) :
    '<' ∉ (escapeHtml s).data ∧ '>' ∉ (escapeHtml s).data :=
  escapeHtmlAux_no_angle s.data

/-! Supporting lemmas about the live outfit grid. -/

theorem map_number_updateFirstCard (grid : List Card) (e : OutfitEvent) :
    (updateFirstCard grid e).map Card.number = grid.map Card.number := by
  induction grid with
  | nil => rfl
  | cons c rest ih =>
    unfold updateFirstCard
    by_cases hc : c.number = e.number
    · simp [hc]
    · simp [hc, ih]

theorem find?_updateFirstCard (grid : List Card) (e : OutfitEvent) (k : Nat) :
    (updateFirstCard grid e).find? (fun c => c.number = k) =
      if k = e.number then
        (grid.find? (fun c => c.number = k)).map
          (fun c => { c with img := CardImage.image e.url })
      else grid.find? (fun c => c.number = k) := by
  induction grid with
  | nil => simp [updateFirstCard]
  | cons c rest ih =>
    unfold updateFirstCard
    by_cases hc : c.number = e.number
    · by_cases hk : k = e.number
      · have hck : c.number = k := by rw [hc, hk]
        simp [List.find?_cons, hc, hck, hk]
      · have hck : ¬ (c.number = k) := by rw [hc]; exact fun h => hk h.symm
        have hek : ¬ (e.number = k) := fun h => hk h.symm
        simp [List.find?_cons, hc, hck, hek, hk]
    · by_cases hck : c.number = k
      · have hk : ¬ (k = e.number) := by rw [← hck]; exact fun h => hc h
        simp [List.find?_cons, hc, hck, hk]
      · simp [List.find?_cons, hc, hck, ih]

theorem processEvents_invariant (arr : List OutfitEvent) (grid : List Card)
    (hmem : ∀ e ∈ arr, ∃ c ∈ grid, c.number = e.number) :
    (processEvents arr grid).map Card.number = grid.map Card.number ∧
      ∀ k, (k ∈ arr.map OutfitEvent.number ∨ FilledAt grid k) →
        FilledAt (processEvents arr grid) k := by
  induction arr generalizing grid with
  | nil =>
    refine ⟨rfl, fun k hk => ?_⟩
    rcases hk with hk | hk
    · exact absurd hk (by simp)
    · exact hk
  | cons e rest ih =>
    obtain ⟨c0, hc0g, hc0n⟩ := hmem e (List.mem_cons_self e rest)
    have hany : grid.any (fun c => c.number = e.number) = true := by
      rw [List.any_eq_true]
      exact ⟨c0, hc0g, by simp [hc0n]⟩
    have hstep : displayLiveOutfit grid e = updateFirstCard grid e := by
      unfold displayLiveOutfit
      rw [if_pos hany]
    have hfold : processEvents (e :: rest) grid =
        processEvents rest (updateFirstCard grid e) := by
      rw [processEvents, List.foldl_cons, hstep]; rfl
    have hmap' : (updateFirstCard grid e).map Card.number = grid.map Card.number :=
      map_number_updateFirstCard grid e
    have hmem' : ∀ e' ∈ rest, ∃ c ∈ updateFirstCard grid e, c.number = e'.number := by
      intro e' he'
      obtain ⟨c, hcg, hcn⟩ := hmem e' (List.mem_cons_of_mem e he')
      have hnum : e'.number ∈ (updateFirstCard grid e).map Card.number := by
        rw [hmap']
        exact List.mem_map.mpr ⟨c, hcg, hcn⟩
      obtain ⟨c', hc'g, hc'n⟩ := List.mem_map.mp hnum
      exact ⟨c', hc'g, hc'n⟩
    have hisSome : ∃ cf, grid.find? (fun c => c.number = e.number) = some cf := by
      have : (grid.find? (fun c => c.number = e.number)).isSome := by
        rw [List.find?_isSome]
        exact ⟨c0, hc0g, by simp [hc0n]⟩
      exact Option.isSome_iff_exists.mp this
    have hfill_e : FilledAt (updateFirstCard grid e) e.number := by
      obtain ⟨cf, hcf⟩ := hisSome
      have hnum : cf.number = e.number := by
        have := List.find?_some hcf
        exact of_decide_eq_true this
      refine ⟨e.url, ?_⟩
      rw [find?_updateFirstCard, if_pos rfl, hcf]
      simp [hnum]
    have hpreserve : ∀ k, FilledAt grid k → FilledAt (updateFirstCard grid e) k := by
      intro k hk
      obtain ⟨u, hu⟩ := hk
      by_cases hke : k = e.number
      · refine ⟨e.url, ?_⟩
        rw [find?_updateFirstCard, if_pos hke, hu]
        simp
      · refine ⟨u, ?_⟩
        rw [find?_updateFirstCard, if_neg hke]
        exact hu
    obtain ⟨ihmap, ihfill⟩ := ih (updateFirstCard grid e) hmem'
    refine ⟨by rw [hfold, ihmap, hmap'], fun k hk => ?_⟩
    rw [hfold]
    rcases hk with hk | hk
    · rcases (by simpa using hk : k = e.number ∨ ∃ a ∈ rest, a.number = k) with
        hke | ⟨a, har, han⟩
      · exact ihfill k (Or.inr (hke ▸ hfill_e))
      · exact ihfill k (Or.inl (List.mem_map.mpr ⟨a, har, han⟩))
    · exact ihfill k (Or.inr (hpreserve k hk))

theorem map_number_placeholders (total : Nat) :
    ((createOutfitPlaceholders total []).map Card.number) = List.range' 1 total := by
  unfold createOutfitPlaceholders
  rw [if_pos rfl, List.map_map]
  have hcomp : (Card.number ∘ fun k =>
      ({ number := k, img := CardImage.placeholderImg } : Card)) = id := by
    funext k; rfl
  rw [hcomp, List.map_id]

/-! The claims. -/

/-- C1: for every request, the clothing images are de-duplicated by filename
before any downstream AI call: whenever the generate click handler submits
(the only path to the `/api/generate` call), the submitted wardrobe has
pairwise-distinct filenames and contains exactly the distinct filenames of
the upload list — e.g. `[a.jpg, b.jpg, a.jpg]` is submitted as
`[a.jpg, b.jpg]`. -/
theorem claim_C1_dedup_before_submit (clothingFiles selfieFiles : List (File ν))
    (queryRaw : String) (imageDescriptions : List (ν × String))
    (sessionId : Option String) (fs : List (File ν))
    (pre : List (String × String)) (sel : List (File ν)) (q sid : Option String)
    (h : generateClick clothingFiles selfieFiles queryRaw imageDescriptions
      sessionId = .submit fs pre sel q sid) :
    (fs.map File.name).Nodup ∧
      ∀ n, n ∈ fs.map File.name ↔ n ∈ clothingFiles.map File.name := by
  obtain ⟨hfs, _⟩ := generateClick_submit_clothing _ _ _ _ _ _ _ _ _ _ h
  subst hfs
  exact ⟨nodup_map_name_uniqueFilesByName clothingFiles,
    fun n => mem_map_name_uniqueFilesByName clothingFiles n⟩

theorem claim_C1_witness :
    generateClick clothingDupExample [] "" [] none =
      .submit [⟨"a.jpg", 0⟩, ⟨"b.jpg", 1⟩] [] [] none none ∧
    ((([⟨"a.jpg", 0⟩, ⟨"b.jpg", 1⟩] : List (File String)).map File.name).Nodup ∧
      ∀ n, n ∈ ([⟨"a.jpg", 0⟩, ⟨"b.jpg", 1⟩] : List (File String)).map File.name ↔
        n ∈ clothingDupExample.map File.name) :=
  ⟨by decide,
    claim_C1_dedup_before_submit clothingDupExample [] "" [] none
      [⟨"a.jpg", 0⟩, ⟨"b.jpg", 1⟩] [] [] none none (by decide)⟩

/-- C2: for every request with zero clothing images and empty (trimmed)
query text, the generate handler returns the validation error immediately —
no `/api/generate` fetch, hence no classify, select or generate call — and
pre-processing of an empty file list makes no describe call. -/
theorem claim_C2_empty_request_rejected (selfies : List (File ν))
    (queryRaw : String) (cache : List (ν × String)) (sid : Option String)
    (oracle : ν → Option String) (cache0 : List (ν × String))
    (hq : jsTrim queryRaw = "") :
    generateClick ([] : List (File ν)) selfies queryRaw cache sid =
      .validationError "Please upload clothing images or ask a question" ∧
    (preprocessImages oracle cache0 ([] : List (File ν))).calls = [] := by
  constructor
  · simp [generateClick, hq]
  · rfl

theorem claim_C2_witness :
    jsTrim " " = "" ∧
    (generateClick ([] : List (File String)) [] " " [] none =
      .validationError "Please upload clothing images or ask a question" ∧
    (preprocessImages (fun _ : String => none) [] ([] : List (File String))).calls = []) :=
  ⟨by decide,
    claim_C2_empty_request_rejected [] " " [] none (fun _ : String => none) [] (by decide)⟩

/-- C3: for every request supplying more than 3 selfie images, the selfie
list is silently truncated to exactly the first 3 (by the change handler,
and likewise by the drop-zone handler on an empty selection) and the request
proceeds: the generate handler's accept/reject decision never depends on the
selfies. -/
theorem claim_C3_selfie_truncation (sel : List (File ν)) (h : sel.length > 3) :
    selfieChangeHandler sel = sel.take 3 ∧
    (selfieChangeHandler sel).length = 3 ∧
    selfieDropHandler [] sel = sel.take 3 ∧
    ∀ (clothing : List (File ν)) (q : String) (cache : List (ν × String))
      (sid : Option String),
      (generateClick clothing (selfieChangeHandler sel) q cache sid).isReject =
        (generateClick clothing ([] : List (File ν)) q cache sid).isReject := by
  refine ⟨rfl, ?_, rfl, ?_⟩
  · rw [selfieChangeHandler, List.length_take]
    omega
  · intro clothing q cache sid
    simp only [generateClick]
    split_ifs <;> rfl

theorem claim_C3_witness :
    selfies4.length > 3 ∧
    selfieChangeHandler selfies4 = selfies4.take 3 ∧
    (selfieChangeHandler selfies4).length = 3 :=
  ⟨by decide, (claim_C3_selfie_truncation selfies4 (by decide)).1,
    (claim_C3_selfie_truncation selfies4 (by decide)).2.1⟩

/-- C4: for every request supplying more than 30 clothing images, the
generate handler returns the validation error "Maximum 30 clothing items
allowed" before any pipeline work. -/
theorem claim_C4_over_30_rejected (clothing selfies : List (File ν))
    (q : String) (cache : List (ν × String)) (sid : Option String)
    (h : clothing.length > 30) :
    generateClick clothing selfies q cache sid =
      .validationError "Maximum 30 clothing items allowed" := by
  have h0 : ¬ (clothing.length = 0 ∧ jsTrim q = "") := fun hc =>
    absurd hc.1 (by omega)
  simp only [generateClick]
  rw [if_neg h0, if_pos h]

theorem claim_C4_witness :
    clothing31.length > 30 ∧
    generateClick clothing31 [] "" [] none =
      .validationError "Maximum 30 clothing items allowed" :=
  ⟨by decide, claim_C4_over_30_rejected clothing31 [] "" [] none (by decide)⟩

/-- C5: `outfit_ready` events are handled in completion order (the grid is
folded over the events as they arrive), and for any completion order that is
a permutation of the combination numbers 1..N, the displayed cards remain in
combination-number order 1..N and every card ends up filled with a generated
image — e.g. call 3 finishing first updates card 3 in place. -/
theorem claim_C5_stream_order_independence (total : Nat)
    (arr : List OutfitEvent)
    (hperm : (arr.map OutfitEvent.number).Perm (List.range' 1 total)) :
    (processEvents arr (createOutfitPlaceholders total [])).map Card.number =
      List.range' 1 total ∧
    ∀ k, 1 ≤ k → k ≤ total →
      FilledAt (processEvents arr (createOutfitPlaceholders total [])) k := by
  have hmem : ∀ e ∈ arr, ∃ c ∈ createOutfitPlaceholders total [],
      c.number = e.number := by
    intro e he
    have h1 : e.number ∈ arr.map OutfitEvent.number := List.mem_map.mpr ⟨e, he, rfl⟩
    have h2 : e.number ∈ List.range' 1 total := hperm.mem_iff.mp h1
    have h3 : e.number ∈ (createOutfitPlaceholders total []).map Card.number := by
      rw [map_number_placeholders]; exact h2
    obtain ⟨c, hc, hcn⟩ := List.mem_map.mp h3
    exact ⟨c, hc, hcn⟩
  obtain ⟨h1, h2⟩ := processEvents_invariant arr _ hmem
  refine ⟨by rw [h1, map_number_placeholders], fun k hk1 hk2 => ?_⟩
  refine h2 k (Or.inl (hperm.mem_iff.mpr ?_))
  exact List.mem_range'.mpr ⟨k - 1, by omega, by omega⟩

theorem claim_C5_witness :
    (outOfOrderEvents.map OutfitEvent.number).Perm (List.range' 1 3) ∧
    (processEvents outOfOrderEvents (createOutfitPlaceholders 3 [])).map Card.number =
      List.range' 1 3 ∧
    FilledAt (processEvents outOfOrderEvents (createOutfitPlaceholders 3 [])) 1 :=
  ⟨by decide,
    (claim_C5_stream_order_independence 3 outOfOrderEvents (by decide)).1,
    (claim_C5_stream_order_independence 3 outOfOrderEvents (by decide)).2 1
      (by decide) (by decide)⟩

/-- C6: for every filename that already has a cached description, the
describe endpoint is never called again for that filename during
pre-processing, and the cached description is left unchanged. -/
theorem claim_C6_describe_cache_idempotent (oracle : ν → Option String)
    (cache0 : List (ν × String)) (files : List (File ν)) (n : ν) (d : String)
    (hc : lookupDesc cache0 n = some d) :
    n ∉ (preprocessImages oracle cache0 files).calls ∧
      lookupDesc (preprocessImages oracle cache0 files).cache n = some d := by
  unfold preprocessImages
  by_cases h0 : files.length = 0
  · rw [if_pos h0]
    exact ⟨List.not_mem_nil n, hc⟩
  · rw [if_neg h0]
    have hpres := processFiles_preserves oracle (uniqueFilesByName files)
      { cache := cache0, calls := [], completed := 0 } n d hc (List.not_mem_nil n)
    exact ⟨hpres.2, hpres.1⟩

theorem claim_C6_witness :
    lookupDesc [("a.jpg", "navy jacket")] "a.jpg" = some "navy jacket" ∧
    ("a.jpg" ∉ (preprocessImages (fun _ : String => some "fresh")
        [("a.jpg", "navy jacket")] [(⟨"a.jpg", 0⟩ : File String)]).calls ∧
      lookupDesc (preprocessImages (fun _ : String => some "fresh")
        [("a.jpg", "navy jacket")] [(⟨"a.jpg", 0⟩ : File String)]).cache "a.jpg" =
        some "navy jacket") :=
  ⟨by decide,
    claim_C6_describe_cache_idempotent (fun _ : String => some "fresh")
      [("a.jpg", "navy jacket")] [⟨"a.jpg", 0⟩] "a.jpg" "navy jacket" (by decide)⟩

/-- C7, counterexample: the pre-computed descriptions are not conveyed keyed
by filename.  Submitting the single file a.jpg with a cached description
produces the map entry keyed by the decimal index string "0", not by
"a.jpg": the map contains no filename-keyed entry at all. -/
theorem claim_C7_counterexample :
    generateClick [(⟨"a.jpg", 0⟩ : File String)] [] ""
      [("a.jpg", "blue shirt")] none =
      .submit [⟨"a.jpg", 0⟩] [("0", "blue shirt")] [] none none ∧
    ("0" : String) ≠ "a.jpg" ∧
    ("a.jpg" : String) ∉ ([(("0" : String), ("blue shirt" : String))].map Prod.fst) :=
  ⟨by decide, by decide, by decide⟩

/-- C7, amended: the inbound request's optional pre-computed descriptions
are conveyed as a map keyed by the zero-based position of the image in the
de-duplicated submission list, written as a decimal string (position →
description); descriptions are matched to images by position, not by
filename.  Formally, the map built starting at index `i` consists of one
entry `(Nat.repr index, description)` per indexed file whose filename has a
cached description. -/
theorem claim_C7_amended_index_keyed (cache : List (ν × String))
    (files : List (File ν)) (i : Nat) :
    precomputedDescs cache files i =
      (List.enumFrom i files).filterMap fun p =>
        (lookupDesc cache p.2.name).map fun d => (Nat.repr p.1, d) := by
  induction files generalizing i with
  | nil => rfl
  | cons f rest ih =>
    cases hl : lookupDesc cache f.name <;>
      simp [precomputedDescs, hl, ih (i + 1), List.filterMap_cons]

/-- C8: de-duplication keeps the first occurrence of each filename in upload
order: looking any filename up in the submitted wardrobe finds exactly the
earliest upload with that name (and the describe loop processes the same
de-duplicated list). -/
theorem claim_C8_first_occurrence_kept (clothingFiles selfieFiles : List (File ν))
    (queryRaw : String) (imageDescriptions : List (ν × String))
    (sessionId : Option String) (fs : List (File ν))
    (pre : List (String × String)) (sel : List (File ν)) (q sid : Option String)
    (h : generateClick clothingFiles selfieFiles queryRaw imageDescriptions
      sessionId = .submit fs pre sel q sid) :
    ∀ n, fs.find? (fun f => f.name = n) =
      clothingFiles.find? (fun f => f.name = n) := by
  intro n
  obtain ⟨hfs, _⟩ := generateClick_submit_clothing _ _ _ _ _ _ _ _ _ _ h
  rw [hfs, find?_uniqueFilesByName]

theorem claim_C8_witness :
    generateClick clothingFirstOccExample [] "" [] none =
      .submit [⟨"a.jpg", 1⟩] [] [] none none ∧
    ([(⟨"a.jpg", 1⟩ : File String)].find? (fun f => f.name = "a.jpg") =
      clothingFirstOccExample.find? (fun f => f.name = "a.jpg")) ∧
    clothingFirstOccExample.find? (fun f => f.name = "a.jpg") = some ⟨"a.jpg", 1⟩ :=
  ⟨by decide,
    claim_C8_first_occurrence_kept clothingFirstOccExample [] "" [] none
      [⟨"a.jpg", 1⟩] [] [] none none (by decide) "a.jpg",
    by decide⟩

/-- C9: every user query and every query_response inserted into the chat
transcript passes through `escapeHtml` — the bubble HTML embeds exactly the
escaped text between static template fragments — and escaped text can never
contain a raw angle bracket, so user-controlled query text is never inserted
into the DOM as raw HTML. -/
theorem claim_C9_query_text_escaped (q r : String) (b : Bool) :
    '<' ∉ (escapeHtml q).data ∧ '>' ∉ (escapeHtml q).data ∧
    '<' ∉ (escapeHtml r).data ∧ '>' ∉ (escapeHtml r).data ∧
    userBubbleHTML q =
      "<div class=\"message-label\">You</div><div class=\"message-text\">" ++
        escapeHtml q ++ "</div>" ∧
    assistantBubbleHTML (some r) b =
      (if b then
        "<div class=\"message-label\">DebonAIr</div>" ++
          "<div class=\"message-text\">" ++ escapeHtml r ++ "</div>" ++
          "<div class=\"outfits-grid\"></div>"
      else
        "<div class=\"message-label\">DebonAIr</div>" ++
          "<div class=\"message-text\">" ++ escapeHtml r ++ "</div>") := by
  refine ⟨(escapeHtml_no_angle q).1, (escapeHtml_no_angle q).2,
    (escapeHtml_no_angle r).1, (escapeHtml_no_angle r).2, rfl, ?_⟩
  cases b <;> rfl

set_option maxRecDepth 100000 in
/-- C10, counterexample: the claim's "strictly less than 100" consequence
fails for large selections: 201 selected files with exactly one duplicated
filename (200 distinct names) yield a final percentage of
round(100·200/201) = 100. -/
theorem claim_C10_counterexample :
    ¬ ((files201.map File.name).Nodup) ∧
    files201.length = 201 ∧
    preprocessFinalPercent (fun _ : Nat => none) [] files201 = 100 :=
  ⟨by decide, by decide, by decide⟩

/-- C10, amended: the final pre-processing percentage equals
round(100·completed/total) where completed counts only distinct filenames
and total counts all selected files including duplicates; consequently, for
any selection containing at least one duplicate filename and at most 199
files in total, the final reported percentage is strictly less than 100. -/
theorem claim_C10_amended_percent (oracle : ν → Option String)
    (cache0 : List (ν × String)) (files : List (File ν))
    (hpos : 0 < files.length) (hdup : ¬ ((files.map File.name).Nodup))
    (hsmall : files.length ≤ 199) :
    preprocessFinalPercent oracle cache0 files =
      progressPercent (uniqueFilesByName files).length files.length ∧
    ((uniqueFilesByName files).map File.name).Nodup ∧
    (uniqueFilesByName files).length < files.length ∧
    preprocessFinalPercent oracle cache0 files < 100 := by
  have hlen0 : ¬ (files.length = 0) := by omega
  have hcompleted : (preprocessImages oracle cache0 files).completed =
      (uniqueFilesByName files).length := by
    unfold preprocessImages
    rw [if_neg hlen0, processFiles_completed]
    exact Nat.zero_add _
  have heq : preprocessFinalPercent oracle cache0 files =
      progressPercent (uniqueFilesByName files).length files.length := by
    unfold preprocessFinalPercent
    rw [hcompleted]
  have hlt : (uniqueFilesByName files).length < files.length :=
    length_dedupFiles_lt files [] (Or.inr hdup)
  refine ⟨heq, nodup_map_name_uniqueFilesByName files, hlt, ?_⟩
  rw [heq]
  exact progressPercent_lt_100 _ _ hlt hsmall

theorem claim_C10_witness :
    0 < clothingDupExample.length ∧
    ¬ ((clothingDupExample.map File.name).Nodup) ∧
    clothingDupExample.length ≤ 199 ∧
    preprocessFinalPercent (fun _ : String => none) [] clothingDupExample < 100 ∧
    preprocessFinalPercent (fun _ : String => none) [] clothingDupExample = 67 :=
  ⟨by decide, by decide, by decide,
    (claim_C10_amended_percent (fun _ : String => none) [] clothingDupExample
      (by decide) (by decide) (by decide)).2.2.2,
    by decide⟩

end DebonAIr
